import Mathlib

/-!
# Verification of the product image ordering and synchronization workflow

Shallow embedding of the image-ordering core of the remix-crm repository:

* namespace `Multipart` — form-data values shared by client and server:
  files, field values, and the FormData get/getAll lookup semantics.
* namespace `ProductForm` — the client-side order model of
  src/app/components/ProductForm.tsx: the orderedImages state, its
  initialization from persisted images, the mutations handleFileSelect,
  reorder (drag and drop) and handleRemoveImage, and the submission
  serialization of handleSubmit.
* namespace `ProductosNuevo` — the server action of
  src/app/routes/productos.nuevo.tsx: the multipart parsing limit, the
  no-op check, field validation, product upsert, per-file image upload
  and row insert, deletion of marked images, and the position-index
  reconciliation loop.

External collaborators (Supabase tables and storage, the JavaScript
runtime Number and parseInt conversions, id/uuid generation) are modelled
by explicit environment parameters, so that the control flow of the code
over their outcomes is embedded faithfully while each individual call may
succeed or fail.
-/

namespace Multipart

/-- A file as both sides see it (the browser File object / the parsed
multipart file part): name, declared MIME type, size in bytes. -/
structure FileRec where
  name : String
  type : String
  size : Nat
deriving DecidableEq, Repr

/-- A value in multipart form data: a text field or a file part. -/
inductive FormValue where
  | str (s : String)
  | file (f : FileRec)
deriving DecidableEq, Repr

/-- Parsed multipart form data: ordered key/value pairs, duplicate keys
allowed (the file input contributes one "images" entry per file). -/
structure FormData where
  entries : List (String × FormValue)
deriving DecidableEq, Repr

/-- The formData.get lookup: first value stored under the key, or null. -/
def FormData.get (fd : FormData) (k : String) : Option FormValue :=
  (fd.entries.find? (fun p => p.1 == k)).map (·.2)

/-- The formData.getAll lookup: every value stored under the key. -/
def FormData.getAll (fd : FormData) (k : String) : List FormValue :=
  (fd.entries.filter (fun p => p.1 == k)).map (·.2)

/-- JavaScript truthiness of a formData.get result: null and the empty
string are falsy, any other string and any File object are truthy. -/
def truthy : Option FormValue → Bool
  | none => false
  | some (.str s) => s != ""
  | some (.file _) => true

/-- The toString / as-string coercion applied to form values by the
action.  The code only ever applies it to text fields; a File object
would stringify to "[object File]". -/
def FormValue.asStr : FormValue → String
  | .str s => s
  | .file _ => "[object File]"

/-- String.prototype.trim: drop leading and trailing whitespace.
Implemented over the character list so that it reduces inside the
kernel; same semantics as the built-in trim. -/
def trimJs (s : String) : String :=
  ⟨((s.data.dropWhile Char.isWhitespace).reverse.dropWhile
      Char.isWhitespace).reverse⟩

/-- String.prototype.startsWith, over the character list. -/
def startsWithJs (s pre : String) : Bool :=
  pre.data.isPrefixOf s.data

/-- Worker for split("."): structural recursion over the characters. -/
def splitDotAux : List Char → List Char → List (List Char)
  | [], acc => [acc.reverse]
  | c :: cs, acc =>
      if c = '.' then acc.reverse :: splitDotAux cs []
      else splitDotAux cs (c :: acc)

/-- String.prototype.split("."): the dot-separated components; a string
without dots yields itself as single component (so .pop() returns the
whole name, exactly as in the code). -/
def splitOnDot (s : String) : List String :=
  (splitDotAux s.data []).map (fun l => ⟨l⟩)

end Multipart

namespace ProductForm

open Multipart

/-- The ExistingImage record of ProductForm.tsx: a persisted image row
handed to the form; order_index is optional (order_index?: number). -/
structure ExistingImage where
  id : String
  url : String
  uuid : String
  order_index : Option Int
deriving DecidableEq, Repr

/-- The NewImage record of ProductForm.tsx: a staged (not yet uploaded)
file with its locally generated id and preview URL. -/
structure NewImage where
  id : String
  url : String
  file : FileRec
  order_index : Int
deriving DecidableEq, Repr

/-- The data payload of an OrderedImage: ExistingImage | NewImage. -/
inductive ImageData where
  | existing (e : ExistingImage)
  | staged (n : NewImage)
deriving DecidableEq, Repr

/-- The type discriminator field of an entry: existing | new. -/
inductive EntryTag where
  | existing
  | staged
deriving DecidableEq, Repr

/-- The OrderedImage record of ProductForm.tsx: one entry of the
reorderable list, carrying the position index both at top level and
inside data. -/
structure OrderedImage where
  id : String
  url : String
  tag : EntryTag
  data : ImageData
  order_index : Int
deriving DecidableEq, Repr

/-- The spread pattern of the renumbering maps applied to the payload:
overwrite the order_index stored inside data. -/
def ImageData.setIdx : ImageData → Int → ImageData
  | .existing e, n => .existing { e with order_index := some n }
  | .staged s, n => .staged { s with order_index := n }

/-- The per-entry renumbering step used by every mutation
(ProductForm.tsx lines 101-108, 119-126, 153-160): spread the entry with
order_index set to n at top level and inside data. -/
def OrderedImage.setIdx (img : OrderedImage) (n : Int) : OrderedImage :=
  { img with order_index := n, data := img.data.setIdx n }

/-- The full-sequence renumbering pass shared by handleFileSelect,
reorder and handleRemoveImage: map each entry at position i to the same
entry with position index i + 1. -/
def renumber (l : List OrderedImage) : List OrderedImage :=
  l.mapIdx (fun i img => img.setIdx ((i : Int) + 1))

/-- The handleFileSelect mutation (lines 76-110): build one staged entry
per selected file — fresh unique id via generateUniqueId and preview URL
via URL.createObjectURL, both modelled as injected generators — with
initial order_index 0, append them to the current list, and renumber. -/
def handleFileSelect (genId genUrl : Nat → String) (files : List FileRec)
    (prev : List OrderedImage) : List OrderedImage :=
  let newImages : List OrderedImage := files.mapIdx (fun i f =>
    { id := genId i
      url := genUrl i
      tag := .staged
      data := .staged { id := genId i, url := genUrl i, file := f, order_index := 0 }
      order_index := 0 })
  renumber (prev ++ newImages)

/-- The reorder function (lines 113-127): splice the entry out at
startIndex, splice it back in at endIndex, then renumber.  The
JavaScript splice(endIndex, 0, x) clamps the insertion point to the
array length, hence the min.  A startIndex outside the list cannot arise
from onDragEnd (the drag-and-drop library reports in-range source
indices); that unreachable branch is modelled as renumbering in place. -/
def reorder (list : List OrderedImage) (startIndex endIndex : Nat) :
    List OrderedImage :=
  match list[startIndex]? with
  | none => renumber list
  | some removed =>
      let rest := list.eraseIdx startIndex
      renumber (rest.insertIdx (min endIndex rest.length) removed)

/-- The handleRemoveImage mutation (lines 149-162): drop the entry with
the given id, then renumber. -/
def handleRemoveImage (imageId : String) (prev : List OrderedImage) :
    List OrderedImage :=
  renumber (prev.filter (fun img => img.id ≠ imageId))

/-- A client-side order-model mutation, as fired by the form handlers. -/
inductive Mutation where
  | add (genId genUrl : Nat → String) (files : List FileRec)
  | drag (startIndex endIndex : Nat)
  | remove (imageId : String)

/-- Dispatch one mutation. -/
def applyMutation (m : Mutation) (l : List OrderedImage) : List OrderedImage :=
  match m with
  | .add genId genUrl files => handleFileSelect genId genUrl files l
  | .drag s e => reorder l s e
  | .remove imageId => handleRemoveImage imageId l

/-- Apply a sequence of mutations left to right. -/
def applyMutations (ms : List Mutation) (l : List OrderedImage) :
    List OrderedImage :=
  ms.foldl (fun acc m => applyMutation m acc) l

/-- The comparator of the orderedImages initializer (lines 48-58), as the
total preorder it realizes: two present indices compare by value, a
present index sorts before a missing one, two missing indices tie. -/
def imageLe (a b : ExistingImage) : Prop :=
  match a.order_index, b.order_index with
  | some x, some y => x ≤ y
  | some _, none => True
  | none, some _ => False
  | none, none => True

instance : DecidableRel imageLe := fun a b => by
  unfold imageLe
  cases a.order_index <;> cases b.order_index <;> infer_instance

instance : IsTotal ExistingImage imageLe where
  total a b := by
    unfold imageLe
    cases a.order_index <;> cases b.order_index <;> simp <;> omega

instance : IsTrans ExistingImage imageLe where
  trans a b c := by
    unfold imageLe
    cases a.order_index <;> cases b.order_index <;> cases c.order_index <;>
      simp <;> omega

/-- The initializer sort (line 48): a spread copy of the images sorted by
the comparator.  Array.prototype.sort is stable (ES2019); under a
comparator realizing the total preorder imageLe, every stable sort has
the same output, computed here by the (stable) insertion sort. -/
def sortImages (l : List ExistingImage) : List ExistingImage :=
  l.insertionSort imageLe

/-- The initializer map (lines 60-69): wrap a persisted image as an
existing entry, substituting 0 for a missing index — the JavaScript
expression img.order_index || 0 yields 0 when the index is undefined and
also maps a stored 0 (falsy) to 0. -/
def initEntry (img : ExistingImage) : OrderedImage :=
  { id := img.id
    url := img.url
    tag := .existing
    order_index := img.order_index.getD 0
    data := .existing { img with order_index := some (img.order_index.getD 0) }
  }

/-- The orderedImages initial state (lines 46-70): sort the persisted
images (defaultValues?.images || []) and wrap each. -/
def orderedImagesInit (images : Option (List ExistingImage)) :
    List OrderedImage :=
  (sortImages (images.getD [])).map initEntry

/-- The submission payload built by handleSubmit (lines 165-191) together
with the hidden inputs rendered at lines 225-245: the browser FormData of
the form holds the optional hidden productId, the name, description and
price fields, one "images" file part per file held by the file input, and
per entry i the hidden field images[i].order_index plus, for existing
entries only, images[i].id.  handleSubmit then formData.set-s the same
images[i] keys with identical values, so the net payload is as built
here. -/
def serializeSubmission (productId : Option String)
    (name description price : String) (fileInputFiles : List FileRec)
    (entries : List OrderedImage) : FormData :=
  { entries :=
      (match productId with
       | some p => [("productId", FormValue.str p)]
       | none => []) ++
      (entries.mapIdx (fun i img =>
        ("images[" ++ toString i ++ "].order_index",
          FormValue.str (toString img.order_index)) ::
        (match img.tag with
         | .existing =>
             [("images[" ++ toString i ++ "].id", FormValue.str img.id)]
         | .staged => []))).flatten ++
      [("name", FormValue.str name),
       ("description", FormValue.str description),
       ("price", FormValue.str price)] ++
      fileInputFiles.map (fun f => ("images", FormValue.file f)) }

end ProductForm

namespace ProductosNuevo

open Multipart

/-- MAX_FILE_SIZE (line 19): 20 MB per-file cap, also the maxPartSize of
the memory upload handler. -/
def MAX_FILE_SIZE : Nat := 20000000

/-- MAX_TOTAL_SIZE (line 20): 50 MB cap on the aggregate size. -/
def MAX_TOTAL_SIZE : Nat := 50000000

/-- A row of the products table. -/
structure ProductRow where
  id : String
  name : String
  description : Option String
  price : ℚ
deriving DecidableEq, Repr

/-- A row of the images table. -/
structure ImageRow where
  id : String
  uuid : String
  url : String
  product_id : String
  order_index : ℚ
deriving DecidableEq, Repr

/-- The state of the external stores: the two relational tables and the
set of blob storage paths, as a list. -/
structure DB where
  products : List ProductRow
  images : List ImageRow
  blobs : List String
deriving DecidableEq, Repr

/-- The errors field of ActionData (lines 8-14). -/
structure Errors where
  name : Option String := none
  description : Option String := none
  price : Option String := none
  images : Option String := none
  form : Option String := none
deriving DecidableEq, Repr

/-- Object.keys(errors).length > 0, negated: no field is set. -/
def Errors.isEmpty (e : Errors) : Bool :=
  e.name.isNone && e.description.isNone && e.price.isNone &&
    e.images.isNone && e.form.isNone

/-- The ActionData response payload (lines 6-16). -/
structure ActionData where
  success : Option String := none
  errors : Option Errors := none
  productId : Option String := none
deriving DecidableEq, Repr

/-- What the action returns: a json payload with an HTTP status, or a
redirect. -/
inductive ActionResult where
  | jsonRes (data : ActionData) (status : Nat)
  | redirectTo (path : String)
deriving DecidableEq, Repr

/-- The productId carried by a response, if any: a redirect carries
none. -/
def responseProductId : ActionResult → Option String
  | .jsonRes d _ => d.productId
  | .redirectTo _ => none

/-- The environment of external collaborators: number parsing of the
JavaScript runtime, fresh identifiers, and the success or failure of
each individual store call.  Per-call outcomes are indexed by the
position of the call in its batch. -/
structure Env where
  /-- JavaScript Number(s); none models NaN. -/
  numVal : String → Option ℚ
  /-- JavaScript parseInt(s, 10); none models NaN. -/
  parseIntDec : String → Option Int
  /-- JSON.parse of the deletedImages field, expected to yield an array
  of id strings; none models a parse exception (caught at line 313). -/
  parseJsonArr : String → Option (List String)
  /-- Row id the products insert assigns to the new product. -/
  freshProductId : String
  /-- randomUUID for the file processed at a given index (line 182). -/
  uuid : Nat → String
  /-- Row id the images insert assigns for the file at a given index. -/
  rowId : Nat → String
  /-- Whether the products insert succeeds (line 117). -/
  insertProductOk : Bool
  /-- Whether the products update succeeds (line 142), beyond the row
  existing. -/
  updateProductOk : Bool
  /-- Whether the storage upload of the file at a given index succeeds
  (line 193). -/
  uploadOk : Nat → Bool
  /-- getPublicUrl for a storage path (line 208); the code treats an
  empty string as a failed resolution (line 214). -/
  publicUrl : String → String
  /-- Whether the images insert for the file at a given index succeeds
  (line 220). -/
  insertImageOk : Nat → Bool
  /-- Whether the select of rows marked for deletion succeeds
  (line 267). -/
  fetchDeleteOk : Bool
  /-- Whether storage removal of a given path succeeds (line 289). -/
  removeBlobOk : String → Bool
  /-- Whether the delete of marked image rows succeeds (line 302). -/
  deleteRowsOk : Bool
  /-- Whether the order_index update at a given position in the update
  batch succeeds (line 341). -/
  posWriteOk : Nat → Bool

/-- The multipart parse stage (lines 24-46): the memory upload handler is
configured with maxPartSize MAX_FILE_SIZE and raises a
MaxPartSizeExceededError whenever a file part exceeds it; the catch block
matches that message ("exceeded upload size") and answers 413.  True iff
some file part exceeds the per-file cap. -/
def parseExceeds (fd : FormData) : Bool :=
  fd.entries.any (fun p => match p.2 with
    | .file f => f.size > MAX_FILE_SIZE
    | .str _ => false)

/-- The 413 message (line 41), with the 20MB figure interpolated. -/
def msg413 : String :=
  "Una o más imágenes superan el límite de 20MB por archivo."

/-- The no-op check (lines 60-62): no truthy productId, no truthy name,
and no file part under the images key with positive size. -/
def isNoOp (fd : FormData) : Bool :=
  !truthy (fd.get "productId") && !truthy (fd.get "name") &&
    !((fd.getAll "images").any (fun v => match v with
      | .file f => f.size > 0
      | .str _ => false))

/-- The name validation (line 96): !name?.trim() — name missing or blank
after trim. -/
def nameInvalid (fd : FormData) : Bool :=
  match fd.get "name" with
  | none => true
  | some v => trimJs v.asStr == ""

/-- The price validation (line 99): !price || isNaN(Number(price)) ||
Number(price) <= 0. -/
def priceInvalid (env : Env) (fd : FormData) : Bool :=
  match fd.get "price" with
  | none => true
  | some v =>
      v.asStr == "" ||
        (match env.numVal v.asStr with
         | none => true
         | some q => q ≤ 0)

/-- Aggregate size of the "images" values (line 104).  The code sums
file.size over formData.getAll("images") cast to File[]; a text value
under that key would contribute undefined and poison the sum to NaN, so
the pair below separates the NaN case from the numeric sum. -/
def totalSizeNaN (fd : FormData) : Bool :=
  (fd.getAll "images").any (fun v => match v with
    | .str _ => true
    | .file _ => false)

/-- The numeric aggregate size of the file parts under "images". -/
def totalSize (fd : FormData) : Nat :=
  ((fd.getAll "images").map (fun v => match v with
    | .file f => f.size
    | .str _ => 0)).sum

/-- The aggregate-size validation (line 105): totalSize > MAX_TOTAL_SIZE;
a NaN total compares false. -/
def totalSizeInvalid (fd : FormData) : Bool :=
  !totalSizeNaN fd && totalSize fd > MAX_TOTAL_SIZE

/-- Field error message for the name (line 97). -/
def nameRequiredMsg : String := "El nombre es requerido"

/-- Field error message for the price (line 100). -/
def priceRequiredMsg : String := "El precio debe ser un número positivo"

/-- Field error message for the aggregate size (line 106); the
interpolated megabyte figures are elided, no claim depends on them. -/
def totalSizeMsg : String :=
  "El tamaño total de las imágenes excede el límite de 50MB."

/-- The accumulated validation errors (lines 94-107). -/
def validationErrors (env : Env) (fd : FormData) : Errors :=
  { name := if nameInvalid fd then some nameRequiredMsg else none
    price := if priceInvalid env fd then some priceRequiredMsg else none
    images := if totalSizeInvalid fd then some totalSizeMsg else none }

/-- Whether the submission takes the update path (line 115): the
productId field is truthy. -/
def isUpdatePath (fd : FormData) : Bool :=
  truthy (fd.get "productId")

/-- The product id string of an update submission. -/
def pidOf (fd : FormData) : String :=
  ((fd.get "productId").getD (.str "")).asStr

/-- Whether the product upsert of step 2 succeeds: the insert oracle on
the create path; on the update path the update oracle and the row
existing (update ... .select("id").single() errors when no row
matches). -/
def productUpsertOk (env : Env) (fd : FormData) (db : DB) : Bool :=
  if isUpdatePath fd then
    env.updateProductOk && db.products.any (fun p => p.id == pidOf fd)
  else
    env.insertProductOk

/-- The trimmed name stored by the upsert (lines 121, 145). -/
def storedName (fd : FormData) : String :=
  trimJs (((fd.get "name").getD (.str "")).asStr)

/-- The stored description (lines 122, 146): description?.trim() || null
— missing or blank collapses to null. -/
def storedDescription (fd : FormData) : Option String :=
  match fd.get "description" with
  | none => none
  | some v =>
      let t := trimJs v.asStr
      if t == "" then none else some t

/-- The stored price (lines 123, 147): Number(price); validation
guarantees a defined positive value on every path that stores it. -/
def storedPrice (env : Env) (fd : FormData) : ℚ :=
  (env.numVal (((fd.get "price").getD (.str "")).asStr)).getD 0

/-- Form error message of a failed insert (line 133). -/
def insertFailMsg : String :=
  "Error al crear el producto en la base de datos. Por favor, intenta de nuevo."

/-- Form error message of a failed update (line 157). -/
def updateFailMsg : String :=
  "Error al actualizar el producto en la base de datos. Por favor, intenta de nuevo."

/-- The submitted order indices the insert loop consults (line 85):
formData.getAll("images[].order_index") mapped through Number.  The
client writes keys of the form images[0].order_index, so on submissions
built by the form this list is empty.  Number of a File is NaN. -/
def imageOrderIndices (env : Env) (fd : FormData) : List (Option ℚ) :=
  (fd.getAll "images[].order_index").map (fun v => match v with
    | .str s => env.numVal s
    | .file _ => none)

/-- The outcome of the per-file chain of step 3: the storage path
uploaded (if the upload ran), the row inserted (if the insert ran and
succeeded), and the public URL the promise resolves to (null on any
failure, in which case the file is skipped). -/
structure FileOutcome where
  blob : Option String := none
  row : Option ImageRow := none
  url : Option String := none
deriving DecidableEq, Repr

/-- The per-file chain (lines 168-239) for the value at position idx of
the "images" batch: skip non-files (a string cast to File throws on
property access and the per-file catch yields null) and files whose
declared type is not an image type or whose size exceeds the per-file
cap; otherwise derive the storage path from the product id, a fresh uuid
and the extension of the file name (split on dots, last component),
upload with upsert semantics, resolve the public URL (an empty
resolution is a failure), and insert the image row.  The inserted
order_index is the submitted index at the file position when that is
defined and truthy, else the fallback position idx + 1 (line 225). -/
def processImage (env : Env) (pid : String) (orderIndices : List (Option ℚ))
    (idx : Nat) (v : FormValue) : FileOutcome :=
  match v with
  | .str _ => {}
  | .file f =>
      if !(startsWithJs f.type "image/") then {}
      else if f.size > MAX_FILE_SIZE then {}
      else
        let imageUuid := env.uuid idx
        let ext := (splitOnDot f.name).getLastD ""
        let storagePath := "products/" ++ pid ++ "/" ++ imageUuid ++ "." ++ ext
        if !(env.uploadOk idx) then {}
        else
          let url := env.publicUrl storagePath
          if url == "" then { blob := some storagePath }
          else if !(env.insertImageOk idx) then { blob := some storagePath }
          else
            let oi : ℚ :=
              match orderIndices[idx]? with
              | some (some q) => if q == 0 then ((idx + 1 : Nat) : ℚ) else q
              | some none => ((idx + 1 : Nat) : ℚ)
              | none => ((idx + 1 : Nat) : ℚ)
            { blob := some storagePath
              row := some
                { id := env.rowId idx
                  uuid := imageUuid
                  url := url
                  product_id := pid
                  order_index := oi }
              url := some url }

/-- Step 3 over the whole batch (lines 167-255): process every value
under the "images" key, collecting uploaded blobs and inserted rows.
When zero files succeed out of a non-empty batch the code assigns
errors.images = "No se pudo subir ninguna imagen" (line 253) to a local
that no later statement reads, so the assignment cannot reach the
response; the state transition below is therefore the whole observable
effect of the step. -/
def imagesStep (env : Env) (pid : String) (fd : FormData) (db : DB) : DB :=
  let vs := fd.getAll "images"
  if vs.length > 0 then
    let ois := imageOrderIndices env fd
    let outs := vs.mapIdx (fun i v => processImage env pid ois i v)
    { db with
        blobs := db.blobs ++ outs.filterMap (·.blob)
        images := db.images ++ outs.filterMap (·.row) }
  else db

/-- The number of files of the batch whose per-file chain succeeded. -/
def successCount (env : Env) (pid : String) (fd : FormData) : Nat :=
  (((fd.getAll "images").mapIdx
    (fun i v => processImage env pid (imageOrderIndices env fd) i v)).filter
      (fun o => o.url.isSome)).length

/-- Step 4, update path only (lines 258-316): when the deletedImages
field is present and truthy, parse it as a JSON array of ids (a parse
exception is caught and skips the step), select the matching rows (a
failed select skips the step), best-effort remove each blob — the path
is rebuilt from the product id, the stored uuid and the extension taken
from the stored URL — and finally delete the rows (a failed delete
leaves the rows). -/
def deleteStep (env : Env) (pid : String) (fd : FormData) (db : DB) : DB :=
  match fd.get "deletedImages" with
  | none => db
  | some v =>
      let s := v.asStr
      if s == "" then db
      else
        match env.parseJsonArr s with
        | none => db
        | some deletedIds =>
            if !env.fetchDeleteOk then db
            else
              let imagesToDelete :=
                db.images.filter (fun r => deletedIds.contains r.id)
              let pathsRemoved := imagesToDelete.filterMap (fun img =>
                let ext := (splitOnDot img.url).getLastD ""
                let storagePath :=
                  "products/" ++ pid ++ "/" ++ img.uuid ++ "." ++ ext
                if env.removeBlobOk storagePath then some storagePath else none)
              let db1 :=
                { db with blobs := db.blobs.filter (fun p => !pathsRemoved.contains p) }
              if !env.deleteRowsOk then db1
              else
                { db1 with
                    images := db1.images.filter
                      (fun r => !deletedIds.contains r.id) }

/-- The scan of lines 318-334: starting at index 0, read images[i].id and
images[i].order_index; break as soon as either is missing or falsy; push
the id with parseInt of the index.  The scan therefore extracts the
maximal prefix of positions whose entries carry both keys — a staged
entry, which has no id key, ends it.  Fuel bounds the scan by the number
of form entries, which dominates the number of distinct present keys. -/
def extractGo (env : Env) (fd : FormData) : Nat → Nat → List (String × Option Int)
  | 0, _ => []
  | fuel + 1, i =>
      match fd.get ("images[" ++ toString i ++ "].id"),
            fd.get ("images[" ++ toString i ++ "].order_index") with
      | some idv, some oiv =>
          if truthy (some idv) && truthy (some oiv) then
            (idv.asStr, env.parseIntDec oiv.asStr) :: extractGo env fd fuel (i + 1)
          else []
      | _, _ => []

/-- The extracted (existing-image-id, position-index) pairs. -/
def extractImageUpdates (env : Env) (fd : FormData) : List (String × Option Int) :=
  extractGo env fd (fd.entries.length + 1) 0

/-- The row transformer of one position write: set order_index on a row
matching both the image id and the owning product id, leave every other
row untouched (the update is scoped by .eq("id", ...) and
.eq("product_id", productId), lines 341-345). -/
def posUpd (pid uid : String) (oi : Int) (r : ImageRow) : ImageRow :=
  if r.id == uid && r.product_id == pid then
    { r with order_index := (oi : ℚ) }
  else r

/-- One position write (lines 339-346).  A NaN parse result is a write
the store rejects, modelled as a failed write. -/
def posApply (pid : String) (u : String × Option Int) (db : DB) : DB :=
  match u.2 with
  | none => db
  | some oi => { db with images := db.images.map (posUpd pid u.1 oi) }

/-- Step 5, update path only (lines 336-356): attempt every position
write independently; a failed write (oracle indexed by batch position)
changes nothing and is only logged. -/
def posWriteGo (env : Env) (pid : String) :
    Nat → List (String × Option Int) → DB → DB
  | _, [], db => db
  | i, u :: us, db =>
      let db' := if env.posWriteOk i then posApply pid u db else db
      posWriteGo env pid (i + 1) us db'

/-- Step 5 from the head of the batch. -/
def posWriteStep (env : Env) (pid : String) (us : List (String × Option Int))
    (db : DB) : DB :=
  posWriteGo env pid 0 us db

/-- The effect of the position write at batch position i on one row: the
scoped posUpd when the write succeeds and parses, the identity otherwise.
Reasoning companion to posWriteGo. -/
def posStep (env : Env) (pid : String) (i : Nat) (u : String × Option Int)
    (r : ImageRow) : ImageRow :=
  if env.posWriteOk i then
    match u.2 with
    | some oi => posUpd pid u.1 oi r
    | none => r
  else r

/-- The accumulated row transformation of the whole position-write batch
starting at position i.  Reasoning companion to posWriteGo: the loop
maps exactly this function over the images table. -/
def posChain (env : Env) (pid : String) :
    Nat → List (String × Option Int) → ImageRow → ImageRow
  | _, [], r => r
  | i, u :: us, r => posChain env pid (i + 1) us (posStep env pid i u r)

/-- The products update of step 2 on the update path (lines 142-151):
write the validated fields to the row with the submitted id. -/
def updateProductRows (env : Env) (fd : FormData) (db : DB) : DB :=
  { db with products := db.products.map (fun p =>
      if p.id == pidOf fd then
        { p with
            name := storedName fd
            description := storedDescription fd
            price := storedPrice env fd }
      else p) }

/-- The products insert of step 2 on the create path (lines 117-127):
append a row under the store-assigned fresh id. -/
def insertProductRow (env : Env) (fd : FormData) (db : DB) : DB :=
  { db with products := db.products ++
      [{ id := env.freshProductId
         name := storedName fd
         description := storedDescription fd
         price := storedPrice env fd }] }

/-- The success payload of a no-op submission (line 66). -/
def noOpData : ActionData := { success := some "No operation performed" }

/-- The action of src/app/routes/productos.nuevo.tsx (lines 22-372), over
the parsed form data, the store state and the collaborator environment;
returns the response and the resulting store state.  Control flow in
order: the multipart size limit, the no-op check, field validation
(accumulated, returned together, status 400), the product upsert (a
failure is fatal, form error, status 500), the per-file upload/insert
step, then — update path only — the deletion step and the position-write
step, and finally redirect("/productos").  All collaborator failures
after the upsert are non-fatal by construction; the outer catch of line
361 is unreachable in this model because every failure is an explicit
value. -/
def action (env : Env) (fd : FormData) (db : DB) : ActionResult × DB :=
  if parseExceeds fd then
    (.jsonRes { errors := some { images := some msg413 } } 413, db)
  else if isNoOp fd then
    (.jsonRes noOpData 200, db)
  else
    let errs := validationErrors env fd
    if !errs.isEmpty then
      (.jsonRes { errors := some errs } 400, db)
    else if isUpdatePath fd then
      let pid := pidOf fd
      if productUpsertOk env fd db then
        let db1 := updateProductRows env fd db
        let db2 := imagesStep env pid fd db1
        let db3 := deleteStep env pid fd db2
        let db4 := posWriteStep env pid (extractImageUpdates env fd) db3
        (.redirectTo "/productos", db4)
      else
        (.jsonRes { errors := some { form := some updateFailMsg } } 500, db)
    else
      if productUpsertOk env fd db then
        let pid := env.freshProductId
        let db1 := insertProductRow env fd db
        let db2 := imagesStep env pid fd db1
        (.redirectTo "/productos", db2)
      else
        (.jsonRes { errors := some { form := some insertFailMsg } } 500, db)

end ProductosNuevo

namespace Fixtures

/-!
Concrete inputs used by witness and counterexample theorems: a fully
successful collaborator environment, small stores, and submissions built
through the embedded client serialization where the scenario calls for a
client-produced payload.
-/

open Multipart ProductForm ProductosNuevo

/-- An environment whose collaborator calls all succeed; number parsing
is fixed on the few literals the fixtures use. -/
def envA : Env :=
  { numVal := fun s =>
      if s == "10" then some 10
      else if s == "0" then some 0
      else if s == "1" then some 1
      else if s == "2" then some 2
      else none
    parseIntDec := fun s =>
      if s == "1" then some 1
      else if s == "2" then some 2
      else none
    parseJsonArr := fun _ => none
    freshProductId := "prod-1"
    uuid := fun i => "uuid-" ++ toString i
    rowId := fun i => "row-" ++ toString i
    insertProductOk := true
    updateProductOk := true
    uploadOk := fun _ => true
    publicUrl := fun p => "https://cdn/" ++ p
    insertImageOk := fun _ => true
    fetchDeleteOk := true
    removeBlobOk := fun _ => true
    deleteRowsOk := true
    posWriteOk := fun _ => true }

/-- An empty store. -/
def db0 : DB := ⟨[], [], []⟩

/-- A submission whose only part is the empty file part a file input
with no selection contributes. -/
def fdNoOp : FormData :=
  ⟨[("images", .file ⟨"", "application/octet-stream", 0⟩)]⟩

/-- A submission with a blank (but truthy) name and a zero price. -/
def fdVal : FormData := ⟨[("name", .str " "), ("price", .str "0")]⟩

/-- A valid create submission with no files. -/
def fdCreate : FormData := ⟨[("name", .str "Lamp"), ("price", .str "10")]⟩

/-- A valid create submission with one staged file that is not an image
type, so that every upload of the (non-empty) batch fails. -/
def fdAllFail : FormData :=
  ⟨[("name", .str "Desk Lamp"), ("price", .str "10"),
    ("images", .file ⟨"notes.txt", "text/plain", 5⟩)]⟩

/-- A file over the 20 MB per-file cap. -/
def bigFile : FileRec := ⟨"big.png", "image/png", 20000001⟩

/-- A submission carrying just one file over the per-file cap. -/
def fdBig : FormData := ⟨[("images", .file bigFile)]⟩

/-- A create submission with three staged files, exactly one of which
exceeds the per-file cap. -/
def fdOversize : FormData :=
  ⟨[("name", .str "X"), ("price", .str "10"),
    ("images", .file ⟨"a.png", "image/png", 100⟩),
    ("images", .file bigFile),
    ("images", .file ⟨"b.png", "image/png", 200⟩)]⟩

/-- An existing entry at display position 1, backing row img-A. -/
def entryA : OrderedImage :=
  { id := "img-A", url := "https://cdn/a.jpg", tag := .existing
    data := .existing
      { id := "img-A", url := "https://cdn/a.jpg", uuid := "uuid-A"
        order_index := some 1 }
    order_index := 1 }

/-- The staged file behind the staged entry of the C2 scenario. -/
def fileS : FileRec := ⟨"s.png", "image/png", 100⟩

/-- A staged entry at display position 2. -/
def entryS : OrderedImage :=
  { id := "new-1", url := "blob:1", tag := .staged
    data := .staged
      { id := "new-1", url := "blob:1", file := fileS, order_index := 2 }
    order_index := 2 }

/-- Client-produced update submission for product p1: existing image at
position 1, staged file at position 2. -/
def fdUpd : FormData :=
  serializeSubmission (some "p1") "Lamp" "" "10" [fileS] [entryA, entryS]

/-- Store for the C2 scenario: product p1 with its one persisted
image. -/
def dbUpd : DB :=
  ⟨[⟨"p1", "Old", none, 5⟩],
   [⟨"img-A", "uuid-A", "https://cdn/a.jpg", "p1", 1⟩], []⟩

/-- The staged file of the C8 counterexample scenario. -/
def fileT : FileRec := ⟨"t.png", "image/png", 50⟩

/-- A staged entry at display position 1. -/
def entryT : OrderedImage :=
  { id := "new-8", url := "blob:8", tag := .staged
    data := .staged
      { id := "new-8", url := "blob:8", file := fileT, order_index := 1 }
    order_index := 1 }

/-- An existing entry at display position 2, backing row img-B. -/
def entryB : OrderedImage :=
  { id := "img-B", url := "https://cdn/b.jpg", tag := .existing
    data := .existing
      { id := "img-B", url := "https://cdn/b.jpg", uuid := "uuid-B"
        order_index := some 7 }
    order_index := 2 }

/-- Client-produced update submission for product p2 in which a staged
entry precedes the existing one. -/
def fdGap : FormData :=
  serializeSubmission (some "p2") "Prod" "" "10" [fileT] [entryT, entryB]

/-- Store for the C8 scenarios: product p2 with its one persisted image,
currently at position 7. -/
def dbB : DB :=
  ⟨[⟨"p2", "Old", none, 5⟩],
   [⟨"img-B", "uuid-B", "https://cdn/b.jpg", "p2", 7⟩], []⟩

/-- The existing entry of the C8 witness, dragged to position 1. -/
def entryB1 : OrderedImage :=
  { id := "img-B", url := "https://cdn/b.jpg", tag := .existing
    data := .existing
      { id := "img-B", url := "https://cdn/b.jpg", uuid := "uuid-B"
        order_index := some 7 }
    order_index := 1 }

/-- Client-produced update submission for product p2 whose only entry is
the existing image, now at position 1. -/
def fdPos : FormData :=
  serializeSubmission (some "p2") "Prod" "" "10" [] [entryB1]

/-- An entry with a non-canonical position index 0, exactly as the
initializer produces for a persisted image lacking one. -/
def e0 : OrderedImage :=
  { id := "a", url := "u", tag := .existing
    data := .existing { id := "a", url := "u", uuid := "ua", order_index := some 0 }
    order_index := 0 }

/-- A canonically numbered entry at position 1. -/
def ce1 : OrderedImage :=
  { id := "a", url := "u1", tag := .existing
    data := .existing { id := "a", url := "u1", uuid := "ua", order_index := some 1 }
    order_index := 1 }

/-- A canonically numbered entry at position 2. -/
def ce2 : OrderedImage :=
  { id := "b", url := "u2", tag := .staged
    data := .staged
      { id := "b", url := "u2", file := ⟨"f.png", "image/png", 1⟩, order_index := 2 }
    order_index := 2 }

/-- A canonically numbered two-entry list. -/
def cl2 : List OrderedImage := [ce1, ce2]

end Fixtures

/-!
## Theorems

Helper lemmas first, then one theorem per claim (with witnesses and
counterexamples where called for).
-/

namespace ProductForm

theorem order_index_setIdx (img : OrderedImage) (n : Int) :
    (img.setIdx n).order_index = n := rfl

theorem data_setIdx_setIdx (d : ImageData) (m n : Int) :
    (d.setIdx m).setIdx n = d.setIdx n := by
  cases d <;> rfl

theorem setIdx_setIdx (img : OrderedImage) (m n : Int) :
    (img.setIdx m).setIdx n = img.setIdx n := by
  simp [OrderedImage.setIdx, data_setIdx_setIdx]

theorem length_renumber (l : List OrderedImage) :
    (renumber l).length = l.length := by
  simp [renumber]

theorem map_setIdx_zero_renumber (l : List OrderedImage) :
    (renumber l).map (fun img => img.setIdx 0)
      = l.map (fun img => img.setIdx 0) := by
  apply List.ext_getElem (by simp [renumber])
  intro i h1 h2
  simp [renumber, setIdx_setIdx]

theorem renumber_eq_of_map_setIdx_zero {l l' : List OrderedImage}
    (h : l.map (fun img => img.setIdx 0) = l'.map (fun img => img.setIdx 0)) :
    renumber l = renumber l' := by
  have hlen : l.length = l'.length := by
    simpa using congrArg List.length h
  apply List.ext_getElem (by simp [renumber, hlen])
  intro i h1 h2
  have hi : i < l.length := by simpa [renumber] using h1
  have hi' : i < l'.length := by simpa [renumber] using h2
  have hpt : l[i].setIdx 0 = l'[i].setIdx 0 := by
    have := congrArg (fun t => t[i]?) h
    simpa [List.getElem?_map, List.getElem?_eq_getElem, hi, hi'] using this
  calc (renumber l)[i] = l[i].setIdx ((i : Int) + 1) := by simp [renumber]
    _ = (l[i].setIdx 0).setIdx ((i : Int) + 1) := by rw [setIdx_setIdx]
    _ = (l'[i].setIdx 0).setIdx ((i : Int) + 1) := by rw [hpt]
    _ = l'[i].setIdx ((i : Int) + 1) := by rw [setIdx_setIdx]
    _ = (renumber l')[i] := by simp [renumber]

theorem map_eraseIdx' {α β : Type} (f : α → β) (l : List α) (n : Nat) :
    (l.eraseIdx n).map f = (l.map f).eraseIdx n := by
  induction l generalizing n with
  | nil => simp
  | cons a t ih => cases n <;> simp [List.eraseIdx, ih]

theorem map_insertIdx' {α β : Type} (f : α → β) (l : List α) (n : Nat) (x : α) :
    (l.insertIdx n x).map f = (l.map f).insertIdx n (f x) := by
  induction l generalizing n with
  | nil => cases n <;> simp
  | cons a t ih =>
      cases n with
      | zero => simp
      | succ m => simp [List.insertIdx_succ_cons, ih]

theorem insertIdx_getElem_eraseIdx {α : Type} (l : List α) (i : Nat)
    (h : i < l.length) :
    (l.eraseIdx i).insertIdx i l[i] = l := by
  induction l generalizing i with
  | nil => simp at h
  | cons a t ih =>
      cases i with
      | zero => simp
      | succ n =>
          simp only [List.eraseIdx, List.insertIdx_succ_cons, List.getElem_cons_succ]
          rw [ih]

theorem renumber_map_order_index (l : List OrderedImage) :
    (renumber l).map (fun img => img.order_index)
      = (List.range l.length).map (fun i : Nat => (i : Int) + 1) := by
  apply List.ext_getElem
  · rw [List.length_map, List.length_map, List.length_range, length_renumber]
  · intro i h1 h2
    simp [renumber, order_index_setIdx]

theorem applyMutation_eq_renumber (m : Mutation) (l : List OrderedImage) :
    ∃ l', applyMutation m l = renumber l' := by
  cases m with
  | add genId genUrl files => exact ⟨_, rfl⟩
  | drag s e =>
      simp only [applyMutation, reorder]
      cases h : l[s]? with
      | none => exact ⟨l, rfl⟩
      | some x => exact ⟨_, rfl⟩
  | remove imageId => exact ⟨_, rfl⟩

theorem applyMutations_cons_eq_renumber (ms : List Mutation) (m : Mutation)
    (l : List OrderedImage) :
    ∃ l', applyMutations (m :: ms) l = renumber l' := by
  induction ms generalizing m l with
  | nil => exact applyMutation_eq_renumber m l
  | cons m2 ms ih => exact ih m2 (applyMutation m l)

/-- C1: after any non-empty sequence of client-side order-model
mutations (add staged files, drag-reorder, remove entry) applied to any
starting entry list, the position indices of the resulting list are
exactly 1, 2, ..., N in current display order, with no gaps or
duplicates — every mutation ends in the full-sequence renumbering
pass. -/
theorem client_mutation_indices_exactly_one_to_n (m : Mutation)
    (ms : List Mutation) (l : List OrderedImage) :
    (applyMutations (m :: ms) l).map (fun img => img.order_index)
      = (List.range (applyMutations (m :: ms) l).length).map
          (fun i : Nat => (i : Int) + 1) := by
  obtain ⟨l', hl⟩ := applyMutations_cons_eq_renumber ms m l
  rw [hl, length_renumber, renumber_map_order_index]

end ProductForm

namespace ProductForm

/-- C7 counterexample: on the entry list produced for a persisted image
whose stored position index is 0 (as the initializer yields for an image
lacking one), dragging the single entry from index 0 to index 0 and back
does not restore the original list — both passes renumber the entry to
position 1. -/
theorem reorder_round_trip_fails_on_noncanonical :
    reorder (reorder [Fixtures.e0] 0 0) 0 0 ≠ [Fixtures.e0] := by
  decide

theorem getElem?_renumber (l : List OrderedImage) (i : Nat) :
    (renumber l)[i]? = l[i]?.map (fun img => img.setIdx ((i : Int) + 1)) := by
  simp [renumber]

/-- C7 (amended): the round trip restores the original sequence with the
original position indices provided the starting list is canonically
numbered, that is, a fixed point of the renumbering pass — which holds
for every list the order model produces, since every mutation ends in
renumbering.  Without that proviso the round trip returns the original
sequence of entries renumbered to 1..N, as the counterexample shows. -/
theorem reorder_round_trip_on_canonical (l : List OrderedImage) (i j : Nat)
    (hi : i < l.length) (hj : j < l.length) (hcanon : renumber l = l) :
    reorder (reorder l i j) j i = l := by
  have hrest : (l.eraseIdx i).length = l.length - 1 :=
    List.length_eraseIdx_of_lt hi
  have hjle : j ≤ (l.eraseIdx i).length := by omega
  have h1 : reorder l i j
      = renumber ((l.eraseIdx i).insertIdx j (l[i])) := by
    rw [reorder, List.getElem?_eq_getElem hi]
    simp [Nat.min_eq_left hjle]
  have hA : ((l.eraseIdx i).insertIdx j (l[i])).length = l.length := by
    rw [List.length_insertIdx _ _ hjle, hrest]
    omega
  have hjA : j < ((l.eraseIdx i).insertIdx j (l[i])).length := by omega
  have hAj : ((l.eraseIdx i).insertIdx j (l[i]))[j] = l[i] :=
    List.getElem_insertIdx_self _ _ _ hjle
  have h2 : (renumber ((l.eraseIdx i).insertIdx j (l[i])))[j]?
      = some ((l[i]).setIdx ((j : Int) + 1)) := by
    rw [getElem?_renumber, List.getElem?_eq_getElem hjA, hAj]
    rfl
  have hlen2 : (renumber ((l.eraseIdx i).insertIdx j (l[i]))).length
      = l.length := by rw [length_renumber, hA]
  have hrest2 :
      ((renumber ((l.eraseIdx i).insertIdx j (l[i]))).eraseIdx j).length
        = l.length - 1 := by
    rw [List.length_eraseIdx_of_lt (by omega)]
    omega
  have hile :
      i ≤ ((renumber ((l.eraseIdx i).insertIdx j (l[i]))).eraseIdx j).length := by
    omega
  have h3 : reorder (reorder l i j) j i
      = renumber
          (((renumber ((l.eraseIdx i).insertIdx j (l[i]))).eraseIdx j).insertIdx
            i ((l[i]).setIdx ((j : Int) + 1))) := by
    rw [h1, reorder, h2]
    simp [Nat.min_eq_left hile]
  rw [h3]
  conv_rhs => rw [← hcanon]
  apply renumber_eq_of_map_setIdx_zero
  rw [map_insertIdx', setIdx_setIdx, map_eraseIdx', map_setIdx_zero_renumber,
    map_insertIdx', List.eraseIdx_insertIdx, map_eraseIdx']
  have hi' : i < (l.map (fun img => img.setIdx 0)).length := by simpa using hi
  have h4 : (l.map (fun img => img.setIdx 0))[i] = l[i].setIdx 0 := by simp
  rw [← h4, insertIdx_getElem_eraseIdx]

/-- C7 witness: the round trip at concrete indices 0 and 1 on a concrete
canonically numbered two-entry list. -/
theorem reorder_round_trip_on_canonical_witness :
    reorder (reorder Fixtures.cl2 0 1) 1 0 = Fixtures.cl2 :=
  reorder_round_trip_on_canonical Fixtures.cl2 0 1 (by decide) (by decide)
    (by decide)

theorem filterNone_orderedInsert_some (a : ExistingImage)
    (l : List ExistingImage) (ha : a.order_index.isNone = false) :
    (List.orderedInsert imageLe a l).filter (fun i => i.order_index.isNone)
      = l.filter (fun i => i.order_index.isNone) := by
  induction l with
  | nil => simp [List.orderedInsert, ha]
  | cons b t ih =>
      by_cases h : imageLe a b
      · simp [List.orderedInsert, h, ha]
      · simp only [List.orderedInsert, if_neg h, List.filter_cons]
        rw [ih]

theorem filterNone_orderedInsert_none (a : ExistingImage)
    (l : List ExistingImage) (ha : a.order_index.isNone = true) :
    (List.orderedInsert imageLe a l).filter (fun i => i.order_index.isNone)
      = a :: l.filter (fun i => i.order_index.isNone) := by
  induction l with
  | nil => simp [List.orderedInsert, ha]
  | cons b t ih =>
      by_cases h : imageLe a b
      · simp [List.orderedInsert, h, ha]
      · have hb : b.order_index.isNone = false := by
          cases hao : a.order_index with
          | some v => rw [hao] at ha; simp at ha
          | none =>
              cases hbo : b.order_index with
              | none =>
                  exfalso
                  apply h
                  unfold imageLe
                  rw [hao, hbo]
                  trivial
              | some v => simp
        simp only [List.orderedInsert, if_neg h, List.filter_cons, hb]
        rw [ih]
        simp

theorem filterNone_sortImages (l : List ExistingImage) :
    (sortImages l).filter (fun i => i.order_index.isNone)
      = l.filter (fun i => i.order_index.isNone) := by
  induction l with
  | nil => rfl
  | cons a t ih =>
      show (List.orderedInsert imageLe a (List.insertionSort imageLe t)).filter _
        = _
      cases ha : a.order_index.isNone with
      | true =>
          rw [filterNone_orderedInsert_none a _ ha]
          rw [show List.insertionSort imageLe t = sortImages t from rfl, ih]
          simp [List.filter_cons, ha]
      | false =>
          rw [filterNone_orderedInsert_some a _ ha]
          rw [show List.insertionSort imageLe t = sortImages t from rfl, ih]
          simp [List.filter_cons, ha]

/-- C9: the initial entry sequence wraps the persisted images sorted by
existing position index ascending; images lacking an index sort after
all images that have one (a present index is strictly before a missing
one under imageLe), and the relative original order among the images
lacking one is preserved.  The sorted list is a permutation of the
input, it is sorted under the comparator preorder, and its subsequence
of index-lacking images equals that of the input. -/
theorem ordered_images_init_spec (imgs : List ProductForm.ExistingImage) :
    orderedImagesInit (some imgs) = (sortImages imgs).map initEntry
    ∧ (sortImages imgs).Perm imgs
    ∧ (sortImages imgs).Sorted imageLe
    ∧ (sortImages imgs).filter (fun i => i.order_index.isNone)
        = imgs.filter (fun i => i.order_index.isNone) := by
  refine ⟨rfl, List.perm_insertionSort _ _, List.sorted_insertionSort _ _,
    filterNone_sortImages imgs⟩

end ProductForm

namespace ProductosNuevo

open Multipart

theorem parseExceeds_eq_false_of_no_large (fd : FormData)
    (h : fd.entries.all (fun p => match p.2 with
      | FormValue.file f => decide (f.size ≤ MAX_FILE_SIZE)
      | FormValue.str _ => true) = true) :
    parseExceeds fd = false := by
  unfold parseExceeds
  rw [List.all_eq_true] at h
  rw [List.any_eq_false]
  intro p hp
  have := h p hp
  cases hv : p.2 with
  | str s => simp [hv]
  | file f =>
      rw [hv] at this
      simp only [decide_eq_true_eq] at this
      simp [hv]
      omega

/-- C10: a submission with no truthy productId, no truthy name and no
file part of positive size short-circuits at the no-op check: the action
answers success with status 200 and performs nothing — no validation
error, no product upsert, no image upload, no deletion and no position
write (the store state is returned untouched). -/
theorem noop_short_circuits (env : Env) (fd : FormData) (db : DB)
    (hpid : truthy (fd.get "productId") = false)
    (hname : truthy (fd.get "name") = false)
    (hfiles : fd.entries.all (fun p => match p.2 with
      | FormValue.file f => decide (f.size = 0)
      | FormValue.str _ => true) = true) :
    action env fd db = (.jsonRes noOpData 200, db) := by
  have hparse : parseExceeds fd = false := by
    apply parseExceeds_eq_false_of_no_large
    rw [List.all_eq_true] at hfiles ⊢
    intro p hp
    have := hfiles p hp
    cases hv : p.2 with
    | str s => simp
    | file f =>
        rw [hv] at this
        simp only [decide_eq_true_eq] at this
        simp [this, MAX_FILE_SIZE]
  have hnoop : isNoOp fd = true := by
    unfold isNoOp
    rw [hpid, hname]
    simp only [Bool.not_false, Bool.true_and, Bool.not_eq_eq_eq_not,
      Bool.not_true]
    rw [List.any_eq_false]
    intro v hv
    simp only [FormData.getAll, List.mem_map] at hv
    obtain ⟨p, hpmem, hpv⟩ := hv
    have hpfd : p ∈ fd.entries := (List.mem_filter.mp hpmem).1
    rw [List.all_eq_true] at hfiles
    have := hfiles p hpfd
    cases hv2 : p.2 with
    | str s =>
        rw [← hpv, hv2]
        simp
    | file f =>
        rw [hv2] at this
        simp only [decide_eq_true_eq] at this
        rw [← hpv, hv2]
        simp [this]
  simp [action, hparse, hnoop]

/-- C10 witness: the submission holding only the empty file part of an
untouched file input is a no-op and leaves an empty store empty. -/
theorem noop_short_circuits_witness :
    action Fixtures.envA Fixtures.fdNoOp Fixtures.db0
      = (.jsonRes noOpData 200, Fixtures.db0) :=
  noop_short_circuits Fixtures.envA Fixtures.fdNoOp Fixtures.db0
    (by decide) (by decide) (by decide)

/-- C5: when any field validation fails (name blank after trim, price
not a positive number, aggregate file size over the total cap), the
action returns the accumulated field errors together in one 400 response
— every failed check contributes its field — and performs no
persistence: the store (products, images, blobs) is returned exactly as
it was. -/
theorem validation_failure_returns_all_errors (env : Env) (fd : FormData)
    (db : DB) (hparse : parseExceeds fd = false)
    (hnoop : isNoOp fd = false)
    (hv : (validationErrors env fd).isEmpty = false) :
    action env fd db
      = (.jsonRes { errors := some (validationErrors env fd) } 400, db)
    ∧ ((validationErrors env fd).name.isSome ↔ nameInvalid fd = true)
    ∧ ((validationErrors env fd).price.isSome ↔ priceInvalid env fd = true)
    ∧ ((validationErrors env fd).images.isSome ↔ totalSizeInvalid fd = true) := by
  refine ⟨by simp [action, hparse, hnoop, hv], ?_, ?_, ?_⟩
  · cases h : nameInvalid fd <;> simp [validationErrors, h]
  · cases h : priceInvalid env fd <;> simp [validationErrors, h]
  · cases h : totalSizeInvalid fd <;> simp [validationErrors, h]

/-- C5 witness: a submission with a blank name and a zero price is
answered with both field errors and an unchanged store. -/
theorem validation_failure_returns_all_errors_witness :
    action Fixtures.envA Fixtures.fdVal Fixtures.db0
      = (.jsonRes
          { errors := some (validationErrors Fixtures.envA Fixtures.fdVal) }
          400, Fixtures.db0) :=
  (validation_failure_returns_all_errors Fixtures.envA Fixtures.fdVal
    Fixtures.db0 (by decide) (by decide) (by decide)).1

/-- C4 counterexample: a valid create submission is answered by
redirect("/productos"), a response that carries no product id — the
productId field of the declared response shape is never populated on the
success path, refuting the claim that the success response carries the
product id. -/
theorem success_redirect_carries_no_product_id :
    action Fixtures.envA Fixtures.fdCreate Fixtures.db0
      = (.redirectTo "/productos",
         ⟨[⟨"prod-1", "Lamp", none, 10⟩], [], []⟩)
    ∧ responseProductId
        (action Fixtures.envA Fixtures.fdCreate Fixtures.db0).1 = none := by
  constructor
  · decide
  · decide

/-- C4 (amended): for every submission that passes the parse, no-op and
validation stages and whose product upsert succeeds, the response after
steps 2-5 have been attempted is the success redirect to the products
listing; it does not carry the product id. -/
theorem post_upsert_response_redirects (env : Env) (fd : FormData) (db : DB)
    (hparse : parseExceeds fd = false) (hnoop : isNoOp fd = false)
    (hv : (validationErrors env fd).isEmpty = true)
    (hup : productUpsertOk env fd db = true) :
    (action env fd db).1 = .redirectTo "/productos"
    ∧ responseProductId (action env fd db).1 = none := by
  cases h : isUpdatePath fd <;>
    simp [action, hparse, hnoop, hv, hup, h, responseProductId]

/-- C4 witness: the redirect conclusion at the concrete valid create
submission. -/
theorem post_upsert_response_redirects_witness :
    (action Fixtures.envA Fixtures.fdCreate Fixtures.db0).1
      = .redirectTo "/productos"
    ∧ responseProductId
        (action Fixtures.envA Fixtures.fdCreate Fixtures.db0).1 = none :=
  post_upsert_response_redirects Fixtures.envA Fixtures.fdCreate Fixtures.db0
    (by decide) (by decide) (by decide) (by decide)

/-- C6 counterexample: on a create submission with three staged files of
which exactly one exceeds the per-file cap, the action does not skip
that file and process the other two — the multipart parse itself fails
and the whole submission is answered 413 with an images error, nothing
persisted. -/
theorem oversize_file_fatal_counterexample :
    action Fixtures.envA Fixtures.fdOversize Fixtures.db0
      = (.jsonRes { errors := some { images := some msg413 } } 413,
         Fixtures.db0) := by
  decide

/-- C6 (amended): a submission containing any file part over the
per-file cap is rejected whole at multipart parse time: the action
returns the fatal images-field error with status 413, no file is
processed, no blob or row is created for any file, and no product row is
saved (the store is returned untouched).  Only the non-image-type check
of step 3 is a non-fatal per-file skip; the per-file size check there is
unreachable because the parse bound fires first. -/
theorem oversize_file_aborts_submission (env : Env) (fd : FormData) (db : DB)
    (h : ∃ p ∈ fd.entries, ∃ f, p.2 = FormValue.file f ∧ MAX_FILE_SIZE < f.size) :
    action env fd db
      = (.jsonRes { errors := some { images := some msg413 } } 413, db) := by
  have hp : parseExceeds fd = true := by
    obtain ⟨p, hpm, f, hf, hsz⟩ := h
    unfold parseExceeds
    rw [List.any_eq_true]
    refine ⟨p, hpm, ?_⟩
    rw [hf]
    simpa using hsz
  simp [action, hp]

/-- C6 witness: the amended conclusion at a submission holding one file
of 20000001 bytes. -/
theorem oversize_file_aborts_submission_witness :
    action Fixtures.envA Fixtures.fdBig Fixtures.db0
      = (.jsonRes { errors := some { images := some msg413 } } 413,
         Fixtures.db0) :=
  oversize_file_aborts_submission Fixtures.envA Fixtures.fdBig Fixtures.db0
    ⟨("images", FormValue.file Fixtures.bigFile), by decide, Fixtures.bigFile,
      rfl, by decide⟩

/-- C3: evaluation at the failing input.  A valid create submission with
a non-empty staged set whose every upload fails (the single file has a
non-image type) is answered by a plain redirect: the product row is
saved, yet the response carries no images-field error — the assignment
of errors.images at line 253 never reaches the response, which the
redirect at line 359 builds without consulting it. -/
theorem all_uploads_fail_no_images_error_in_response :
    action Fixtures.envA Fixtures.fdAllFail Fixtures.db0
      = (.redirectTo "/productos",
         ⟨[⟨"prod-1", "Desk Lamp", none, 10⟩], [], []⟩)
    ∧ successCount Fixtures.envA "prod-1" Fixtures.fdAllFail = 0
    ∧ (Fixtures.fdAllFail.getAll "images").length = 1 := by
  refine ⟨by decide, by decide, by decide⟩

/-- C2: evaluation at the failing input.  On a client-produced update
submission whose entries are the existing image at position 1 and a
staged file at position 2, the client serializes the staged file
position as images[1].order_index = "2", but the action reads the
submitted indices with formData.getAll("images[].order_index") — a key
the client never writes — so the list is empty and the inserted row
falls back to file-position + 1 = 1 instead of the submitted 2, leaving
two rows with order_index 1. -/
theorem staged_insert_ignores_submitted_position :
    Fixtures.fdUpd.get "images[1].order_index" = some (FormValue.str "2")
    ∧ imageOrderIndices Fixtures.envA Fixtures.fdUpd = []
    ∧ ((action Fixtures.envA Fixtures.fdUpd Fixtures.dbUpd).2.images.filterMap
        (fun r => if r.id == "row-0" then some r.order_index else none)) = [1]
    ∧ (action Fixtures.envA Fixtures.fdUpd Fixtures.dbUpd).2.images.map
        (fun r => r.order_index) = [1, 1] := by
  refine ⟨by decide, by decide, by decide, by decide⟩

end ProductosNuevo

namespace ProductosNuevo

open Multipart

theorem posUpd_id (pid uid : String) (oi : Int) (r : ImageRow) :
    (posUpd pid uid oi r).id = r.id := by
  unfold posUpd
  split <;> rfl

theorem posUpd_product_id (pid uid : String) (oi : Int) (r : ImageRow) :
    (posUpd pid uid oi r).product_id = r.product_id := by
  unfold posUpd
  split <;> rfl

theorem posUpd_override (pid uid : String) (oi : Int) (x : ℚ) (r : ImageRow) :
    ({ posUpd pid uid oi r with order_index := x }) = { r with order_index := x } := by
  unfold posUpd
  split <;> rfl

theorem posUpd_of_ne (pid uid : String) (oi : Int) (r : ImageRow)
    (h : r.id ≠ uid ∨ r.product_id ≠ pid) : posUpd pid uid oi r = r := by
  have hc : (r.id == uid && r.product_id == pid) = false := by
    rcases h with h | h <;> simp [h]
  simp [posUpd, hc]

theorem posStep_id (env : Env) (pid : String) (i : Nat)
    (u : String × Option Int) (r : ImageRow) :
    (posStep env pid i u r).id = r.id := by
  unfold posStep
  split
  · cases u.2
    · rfl
    · exact posUpd_id _ _ _ _
  · rfl

theorem posStep_product_id (env : Env) (pid : String) (i : Nat)
    (u : String × Option Int) (r : ImageRow) :
    (posStep env pid i u r).product_id = r.product_id := by
  unfold posStep
  split
  · cases u.2
    · rfl
    · exact posUpd_product_id _ _ _ _
  · rfl

theorem posStep_override (env : Env) (pid : String) (i : Nat)
    (u : String × Option Int) (x : ℚ) (r : ImageRow) :
    ({ posStep env pid i u r with order_index := x })
      = { r with order_index := x } := by
  unfold posStep
  split
  · cases u.2
    · rfl
    · exact posUpd_override _ _ _ _ _
  · rfl

theorem posStep_of_ne (env : Env) (pid : String) (i : Nat)
    (u : String × Option Int) (r : ImageRow)
    (h : r.id ≠ u.1 ∨ r.product_id ≠ pid) : posStep env pid i u r = r := by
  unfold posStep
  split
  · cases u.2
    · rfl
    · exact posUpd_of_ne _ _ _ _ h
  · rfl

theorem posWriteGo_eq_map (env : Env) (pid : String) :
    ∀ (us : List (String × Option Int)) (i : Nat) (db : DB),
      (posWriteGo env pid i us db).images
          = db.images.map (posChain env pid i us)
        ∧ (posWriteGo env pid i us db).products = db.products
        ∧ (posWriteGo env pid i us db).blobs = db.blobs
  | [], i, db => by simp [posWriteGo, posChain]
  | u :: us, i, db => by
      have hid : ∀ (h : ∀ r, posStep env pid i u r = r),
          db.images = db.images.map (posStep env pid i u) := by
        intro h
        calc db.images = db.images.map (fun r => r) := (List.map_id' _).symm
          _ = db.images.map (posStep env pid i u) :=
              (List.map_congr_left (fun r _ => h r)).symm
      have hstep :
          (if env.posWriteOk i then posApply pid u db else db).images
              = db.images.map (posStep env pid i u)
            ∧ (if env.posWriteOk i then posApply pid u db else db).products
              = db.products
            ∧ (if env.posWriteOk i then posApply pid u db else db).blobs
              = db.blobs := by
        cases hok : env.posWriteOk i with
        | false =>
            simp only [hok, Bool.false_eq_true, if_false]
            exact ⟨hid (fun r => by simp [posStep, hok]), by trivial, by trivial⟩
        | true =>
            cases hu : u.2 with
            | none =>
                simp only [hok, if_true, posApply, hu]
                exact ⟨hid (fun r => by simp [posStep, hok, hu]), by trivial, by trivial⟩
            | some oi =>
                simp only [hok, if_true, posApply, hu]
                refine ⟨List.map_congr_left (fun r _ => ?_), by trivial, by trivial⟩
                simp [posStep, hok, hu]
      obtain ⟨h1, h2, h3⟩ :=
        posWriteGo_eq_map env pid us (i + 1)
          (if env.posWriteOk i then posApply pid u db else db)
      refine ⟨?_, ?_, ?_⟩
      · show (posWriteGo env pid (i + 1) us _).images = _
        rw [h1, hstep.1, List.map_map]
        apply List.map_congr_left
        intro r _
        rfl
      · show (posWriteGo env pid (i + 1) us _).products = _
        rw [h2, hstep.2.1]
      · show (posWriteGo env pid (i + 1) us _).blobs = _
        rw [h3, hstep.2.2]

theorem posChain_id (env : Env) (pid : String) :
    ∀ (us : List (String × Option Int)) (i : Nat) (r : ImageRow),
      (posChain env pid i us r).id = r.id
        ∧ (posChain env pid i us r).product_id = r.product_id
  | [], i, r => ⟨rfl, rfl⟩
  | u :: us, i, r => by
      obtain ⟨h1, h2⟩ :=
        posChain_id env pid us (i + 1) (posStep env pid i u r)
      exact ⟨h1.trans (posStep_id env pid i u r),
        h2.trans (posStep_product_id env pid i u r)⟩

theorem posChain_frame (env : Env) (pid : String) :
    ∀ (us : List (String × Option Int)) (i : Nat) (r : ImageRow),
      (r.product_id ≠ pid ∨ r.id ∉ us.map Prod.fst) →
      posChain env pid i us r = r
  | [], _, _, _ => rfl
  | u :: us, i, r, h => by
      have hne : r.id ≠ u.1 ∨ r.product_id ≠ pid := by
        rcases h with h | h
        · exact Or.inr h
        · exact Or.inl (fun he => h (by simp [he]))
      have hstep : posStep env pid i u r = r := posStep_of_ne env pid i u r hne
      show posChain env pid (i + 1) us (posStep env pid i u r) = r
      rw [hstep]
      apply posChain_frame env pid us (i + 1) r
      rcases h with h | h
      · exact Or.inl h
      · exact Or.inr (fun hm => h (by simp [List.mem_cons, hm]))

theorem posChain_write (env : Env) (pid uid : String) (oi : Int)
    (post : List (String × Option Int)) (hpost : uid ∉ post.map Prod.fst) :
    ∀ (pre : List (String × Option Int)) (i : Nat) (r : ImageRow),
      env.posWriteOk (i + pre.length) = true → r.id = uid →
      r.product_id = pid →
      posChain env pid i (pre ++ (uid, some oi) :: post) r
        = { r with order_index := (oi : ℚ) }
  | [], i, r => by
      intro hok hid hpid2
      have hok' : env.posWriteOk i = true := by simpa using hok
      show posChain env pid (i + 1) post
          (posStep env pid i (uid, some oi) r) = _
      have hstep : posStep env pid i (uid, some oi) r
          = { r with order_index := (oi : ℚ) } := by
        simp [posStep, hok', posUpd, hid, hpid2]
      rw [hstep]
      apply posChain_frame
      right
      simpa [hid] using hpost
  | p :: pre, i, r => by
      intro hok hid hpid2
      show posChain env pid (i + 1) (pre ++ (uid, some oi) :: post)
          (posStep env pid i p r) = _
      have hok' : env.posWriteOk (i + 1 + pre.length) = true := by
        have harith : i + (p :: pre).length = i + 1 + pre.length := by
          simp
          omega
        rw [← harith]
        exact hok
      have := posChain_write env pid uid oi post hpost pre (i + 1)
        (posStep env pid i p r) hok'
        ((posStep_id env pid i p r).trans hid)
        ((posStep_product_id env pid i p r).trans hpid2)
      rw [this, posStep_override]

theorem processImage_row_product_id (env : Env) (pid : String)
    (ois : List (Option ℚ)) (i : Nat) (v : FormValue) (r : ImageRow)
    (h : (processImage env pid ois i v).row = some r) : r.product_id = pid := by
  cases v with
  | str s => simp [processImage] at h
  | file f =>
      simp only [processImage] at h
      split at h
      · simp at h
      · split at h
        · simp at h
        · split at h
          · simp at h
          · split at h
            · simp at h
            · split at h
              · simp at h
              · have h2 := Option.some_inj.mp h
                rw [← h2]

theorem imagesStep_decomp (env : Env) (pid : String) (fd : FormData)
    (db : DB) :
    ∃ extra, (imagesStep env pid fd db).images = db.images ++ extra
      ∧ (∀ r ∈ extra, r.product_id = pid)
      ∧ (imagesStep env pid fd db).products = db.products := by
  simp only [imagesStep]
  split
  · refine ⟨_, rfl, ?_, rfl⟩
    intro r hr
    simp only [List.mem_filterMap] at hr
    obtain ⟨o, ho, hro⟩ := hr
    rw [List.mem_mapIdx] at ho
    obtain ⟨i, hi, hfo⟩ := ho
    exact processImage_row_product_id env pid _ i _ r (hfo ▸ hro)
  · exact ⟨[], by simp, by simp, rfl⟩

theorem deleteStep_none (env : Env) (pid : String) (fd : FormData) (db : DB)
    (h : fd.get "deletedImages" = none) : deleteStep env pid fd db = db := by
  simp [deleteStep, h]

theorem updateProductRows_images (env : Env) (fd : FormData) (db : DB) :
    (updateProductRows env fd db).images = db.images := rfl

theorem action_update_decomp (env : Env) (fd : FormData) (db : DB)
    (hparse : parseExceeds fd = false) (hnoop : isNoOp fd = false)
    (hv : (validationErrors env fd).isEmpty = true)
    (hpath : isUpdatePath fd = true)
    (hup : productUpsertOk env fd db = true) :
    action env fd db
      = (.redirectTo "/productos",
         posWriteStep env (pidOf fd) (extractImageUpdates env fd)
           (deleteStep env (pidOf fd) fd
             (imagesStep env (pidOf fd) fd (updateProductRows env fd db)))) := by
  simp [action, hparse, hnoop, hv, hpath, hup]

end ProductosNuevo

namespace ProductosNuevo

open Multipart

/-- C8 counterexample: the claim quantifies over every
(existing-image-id, position-index) pair in the submission, but the scan
of lines 322-334 breaks at the first position whose images[i].id key is
missing.  On a client-produced update submission whose first entry is
staged, the pair (img-B, 2) is present in the form data yet no pairs are
extracted at all, and the img-B row keeps its stored position 7 instead
of receiving the submitted 2. -/
theorem position_write_stops_at_first_staged_entry :
    Fixtures.fdGap.get "images[1].id" = some (FormValue.str "img-B")
    ∧ Fixtures.fdGap.get "images[1].order_index" = some (FormValue.str "2")
    ∧ extractImageUpdates Fixtures.envA Fixtures.fdGap = []
    ∧ ((action Fixtures.envA Fixtures.fdGap Fixtures.dbB).2.images.filterMap
        (fun r => if r.id == "img-B" then some r.order_index else none))
      = [7] := by
  refine ⟨by decide, by decide, by decide, by decide⟩

/-- C8 (amended): on the update path (no deletions marked), for every
(existing-image-id, position-index) pair the server actually extracts —
the maximal prefix of positions carrying both images[i].id and
images[i].order_index; the scan stops at the first entry lacking an id,
so pairs after a staged entry are never attempted — the position index
is written only to the image row with that id owned by the submitted
product: rows of any other product are returned unchanged in place, rows
whose id is not among the extracted pairs are unchanged, every row still
belonging to another product was already present, and the response is
the success redirect for every failure oracle, so a subset of the writes
failing does not fail the submission; a pair whose id occurs in no later
pair and whose write succeeds leaves every matching row of the owning
product carrying exactly the submitted index. -/
theorem position_writes_scoped_and_nonfatal (env : Env) (fd : FormData)
    (db : DB) (hparse : parseExceeds fd = false) (hnoop : isNoOp fd = false)
    (hv : (validationErrors env fd).isEmpty = true)
    (hpath : isUpdatePath fd = true)
    (hup : productUpsertOk env fd db = true)
    (hdel : fd.get "deletedImages" = none) :
    (action env fd db).1 = .redirectTo "/productos"
    ∧ (∀ k (hk : k < db.images.length),
        (db.images[k].product_id ≠ pidOf fd ∨
          db.images[k].id ∉ (extractImageUpdates env fd).map Prod.fst) →
        (action env fd db).2.images[k]? = some db.images[k])
    ∧ (∀ r ∈ (action env fd db).2.images,
        r.product_id ≠ pidOf fd → r ∈ db.images)
    ∧ (∀ (pre post : List (String × Option Int)) (uid : String) (oi : Int),
        extractImageUpdates env fd = pre ++ (uid, some oi) :: post →
        uid ∉ post.map Prod.fst → env.posWriteOk pre.length = true →
        ∀ k (hk : k < db.images.length), db.images[k].id = uid →
          db.images[k].product_id = pidOf fd →
          (action env fd db).2.images[k]?
            = some { db.images[k] with order_index := (oi : ℚ) }) := by
  have hdecomp := action_update_decomp env fd db hparse hnoop hv hpath hup
  obtain ⟨extra, hex, hexpid, _⟩ :=
    imagesStep_decomp env (pidOf fd) fd (updateProductRows env fd db)
  have himg :
      (action env fd db).2.images
        = (db.images ++ extra).map
            (posChain env (pidOf fd) 0 (extractImageUpdates env fd)) := by
    rw [hdecomp]
    show (posWriteStep env (pidOf fd) (extractImageUpdates env fd) _).images = _
    rw [posWriteStep,
      (posWriteGo_eq_map env (pidOf fd) (extractImageUpdates env fd) 0 _).1,
      deleteStep_none env (pidOf fd) fd _ hdel, hex, updateProductRows_images]
  have hres : (action env fd db).1 = .redirectTo "/productos" := by
    rw [hdecomp]
  refine ⟨hres, ?_, ?_, ?_⟩
  · intro k hk hcond
    rw [himg, List.getElem?_map, List.getElem?_append_left hk,
      List.getElem?_eq_getElem hk]
    simp only [Option.map_some']
    rw [posChain_frame env (pidOf fd) (extractImageUpdates env fd) 0
      db.images[k] hcond]
  · intro r hr hrpid
    rw [himg] at hr
    simp only [List.mem_map] at hr
    obtain ⟨s, hs, hps⟩ := hr
    have hchain :=
      (posChain_id env (pidOf fd) (extractImageUpdates env fd) 0 s).2
    rw [hps] at hchain
    have hs2 : s.product_id ≠ pidOf fd := by
      rw [← hchain]
      exact hrpid
    have hsdb : s ∈ db.images := by
      rcases List.mem_append.mp hs with h | h
      · exact h
      · exact absurd (hexpid s h) hs2
    have hfix : posChain env (pidOf fd) 0 (extractImageUpdates env fd) s = s :=
      posChain_frame env (pidOf fd) (extractImageUpdates env fd) 0 s
        (Or.inl hs2)
    rw [← hps, hfix]
    exact hsdb
  · intro pre post uid oi hpairs hpostne hok k hk hid hpid2
    rw [himg, List.getElem?_map, List.getElem?_append_left hk,
      List.getElem?_eq_getElem hk]
    simp only [Option.map_some']
    rw [hpairs, posChain_write env (pidOf fd) uid oi post hpostne pre 0
      db.images[k] (by simpa using hok) hid hpid2]

/-- C8 witness: on a client-produced update submission whose single
entry is the existing image img-B dragged to position 1, the pair
(img-B, 1) is extracted, the submission succeeds with the redirect, and
the img-B row of product p2 ends with order_index 1. -/
theorem position_writes_scoped_and_nonfatal_witness :
    (action Fixtures.envA Fixtures.fdPos Fixtures.dbB).1
      = ActionResult.redirectTo "/productos"
    ∧ (action Fixtures.envA Fixtures.fdPos Fixtures.dbB).2.images[0]?
      = some { id := "img-B", uuid := "uuid-B", url := "https://cdn/b.jpg",
               product_id := "p2", order_index := (1 : ℚ) } := by
  obtain ⟨h1, h2, h3, h4⟩ :=
    position_writes_scoped_and_nonfatal Fixtures.envA Fixtures.fdPos
      Fixtures.dbB (by decide) (by decide) (by decide) (by decide) (by decide)
      (by decide)
  refine ⟨h1, ?_⟩
  exact h4 [] [] "img-B" 1 (by decide) (by decide) (by decide) 0 (by decide)
    (by decide) (by decide)

end ProductosNuevo
